import Mathlib

/-!
Shallow embedding of the `go-fake-useragent` library (package `useragent` plus
the C-wrapper entry points in `cmd/c-wrapper/main.go`).

Modelling conventions, used uniformly below:
* instants (`time.Time`) and durations (`time.Duration`) are integer
  nanosecond counts (`Int`); dates handed to the approximator are measured
  relative to its own anchor `t0 = 2025-05-14T00:00:00Z`;
* `float64` arithmetic of the approximator is modelled exactly over `ℚ`;
  Go `int(x)` conversion is truncation toward zero and `math.Round` rounds
  half away from zero;
* Go `map[string]string` values are association lists with pairwise distinct
  keys; a map lookup is `lookupHeader`;
* external effects (HTTP transfers, the regex engine, `url.Parse`,
  `time.Parse`) enter as explicit oracle arguments holding their results, and
  every random draw `rand.IntN n` is an explicit `Nat` argument reduced mod `n`.
-/

/-- Go `int(x)` conversion from `float64`: truncation toward zero
(`Rat.floor` is used so the definition evaluates; `-(-q).floor` is `⌈q⌉`). -/
def goTrunc (q : ℚ) : Int := if q < 0 then -((-q).floor) else q.floor

/-- Go `math.Round`: rounding half away from zero. -/
def goRound (q : ℚ) : Int := if q < 0 then -((-q + 1/2).floor) else (q + 1/2).floor

/-- Go `strings.TrimPrefix(s, pre)`: drop `pre` when it starts `s`, else
`s` (stated over the character list so it evaluates). -/
def goTrimPre (s pre : String) : String :=
  if pre.data.isPrefixOf s.data then String.mk (s.data.drop pre.data.length) else s

/-- Go `strings.TrimSuffix(s, suf)`: drop `suf` when it ends `s`, else `s`. -/
def goTrimSuf (s suf : String) : String :=
  if suf.data.isSuffixOf s.data then
    String.mk (s.data.take (s.data.length - suf.data.length))
  else s

/-- Nanoseconds in a civil day (Go `time` has no leap seconds). -/
def nsPerDay : Int := 86400000000000

/-- `t := d.Sub(t0).Hours() / 24` of `approximateVersionForDate`: days since
the anchor `2025-05-14T00:00:00Z`, as an exact rational. -/
def approxT (dNs : Int) : ℚ := (dNs : ℚ) / (nsPerDay : ℚ)

/-- The `knownBuild` table `{136: 7103, 137: 7151, 138: 7204, 139: 7258}`. -/
def knownBuild (m : Int) : Option ℚ :=
  if m = 136 then some 7103
  else if m = 137 then some 7151
  else if m = 138 then some 7204
  else if m = 139 then some 7258
  else none

/-- `M := 136 + (t / 31)` of `approximateVersionForDate`. -/
def approxMajorQ (dNs : Int) : ℚ := 136 + approxT dNs / 31

/-- `int(M)` as rendered by the `%d` verb. -/
def approxMajor (dNs : Int) : Int := goTrunc (approxMajorQ dNs)

/-- `B`: the `knownBuild` entry for `int(M)` when present, else
`7103 + 52*(M-136)`. -/
def approxBuildQ (dNs : Int) : ℚ :=
  match knownBuild (approxMajor dNs) with
  | some build => build
  | none => 7103 + 52 * (approxMajorQ dNs - 136)

/-- `int(B)` as rendered by the `%d` verb. -/
def approxBuild (dNs : Int) : Int := goTrunc (approxBuildQ dNs)

/-- `int(p)` where `p := math.Round(0.88*t + 62.55)`. -/
def approxPatch (dNs : Int) : Int := goRound (88/100 * approxT dNs + 6255/100)

/-- `approximateVersionForDate`: the string `fmt.Sprintf("%d.0.%d.%d", ...)`
for the date `dNs` nanoseconds after the anchor `2025-05-14T00:00:00Z`. -/
def approximateVersionForDate (dNs : Int) : String :=
  toString (approxMajor dNs) ++ ".0." ++ toString (approxBuild dNs)
    ++ "." ++ toString (approxPatch dNs)

/-- `approximateVersions` (method on `Generator`; it only reads the clock):
the approximator evaluated at today and at the four preceding weekly offsets
`AddDate(0, 0, -i*7)` for `i = 0..4`. -/
def approximateVersions (nowNs : Int) : List String :=
  (List.range 5).map (fun i => approximateVersionForDate (nowNs - (i : Int) * 7 * nsPerDay))

/-- The mutable state of `Generator` that the claims concern: the live
VersionSet and the configured disk-cache TTL. -/
structure Generator where
  versions : List String
  diskCacheTTL : Int
deriving DecidableEq

/-- The on-disk `cacheFile` record `{timestamp, versions}`. -/
structure cacheFile where
  timestamp : Int
  versions : List String
deriving DecidableEq

/-- Outcome of `os.ReadFile` + `json.Unmarshal` on the cache path:
a read failure (missing or unreadable file), content that fails to
deserialize, or a well-formed record. -/
inductive diskReadResult where
  | readError
  | malformed
  | record (c : cacheFile)

/-- `loadFromDiskCache`: returns whether the cache was adopted together with
the resulting generator state.  A read failure, malformed content, a
timestamp older than the TTL (`time.Since(cache.Timestamp) > g.diskCacheTTL`)
or an empty version list all yield `false` without touching the VersionSet;
otherwise the record's versions replace the live VersionSet. -/
def Generator.loadFromDiskCache (g : Generator) (nowNs : Int) (r : diskReadResult) :
    Bool × Generator :=
  match r with
  | .readError => (false, g)
  | .malformed => (false, g)
  | .record c =>
    if g.diskCacheTTL < nowNs - c.timestamp then (false, g)
    else if c.versions = [] then (false, g)
    else (true, { g with versions := c.versions })

/-- `saveToDiskCache`: skips the write when the VersionSet is empty, else
writes the record `{Timestamp: time.Now(), Versions: versions}` (the
marshal/temp-file/rename plumbing is the successful write of this record;
its failure branches only log and write nothing). -/
def Generator.saveToDiskCache (g : Generator) (nowNs : Int) : Option cacheFile :=
  if g.versions = [] then none else some ⟨nowNs, g.versions⟩

/-- Outcome of the race in `updateVersions` between the two fetcher
goroutines under the shared deadline: the first successful fetcher's list
arrives on the result channel, or both goroutines finish without a result,
or the shared context times out first. -/
inductive netOutcome where
  | firstSuccess (versions : List String)
  | allFailed
  | timedOut

/-- `updateVersions`: the `select` over the result channel, the
all-done channel and the context deadline.  The first component is the
returned `error` (`none` is Go `nil`), the second the new generator state. -/
def Generator.updateVersions (g : Generator) (nowNs : Int) (o : netOutcome) :
    Option String × Generator :=
  match o with
  | .firstSuccess vs => (none, { g with versions := vs })
  | .allFailed => (none, { g with versions := approximateVersions nowNs })
  | .timedOut => (none, { g with versions := approximateVersions nowNs })

/-- `chromeUATemplate` instantiated at a version string. -/
def chromeUATemplate (version : String) : String :=
  "Mozilla/5.0 (Windows NT 10.0; Win64; x64) AppleWebKit/537.36 (KHTML, like Gecko) Chrome/"
    ++ version ++ " Safari/537.36"

/-- `edgeUATemplate` instantiated (the source substitutes the same version
into both verbs). -/
def edgeUATemplate (version : String) : String :=
  "Mozilla/5.0 (Windows NT 10.0; Win64; x64) AppleWebKit/537.36 (KHTML, like Gecko) Chrome/"
    ++ version ++ " Safari/537.36 Edg/" ++ version

/-- Go `fmt`'s rendering of a `[]string` under a `%s` verb: the elements
space-separated inside square brackets. -/
def goFormatStringSlice (vs : List String) : String :=
  "[" ++ String.intercalate " " vs ++ "]"

/-- `Get`: with an empty VersionSet the whole approximated slice is passed to
the single `%s` verb of the Chrome template; otherwise a uniformly random
version is drawn (`rand.IntN` modelled by `vi % len`) and a fair coin picks
the Chrome or the Edge template. -/
def Generator.Get (g : Generator) (nowNs : Int) (vi : Nat) (coin : Bool) : String :=
  if g.versions = [] then
    chromeUATemplate (goFormatStringSlice (approximateVersions nowNs))
  else
    let randomVersion := g.versions.getD (vi % g.versions.length) ""
    if coin then chromeUATemplate randomVersion
    else edgeUATemplate randomVersion

/-- Googlebot User-Agent template instantiated at a Chrome version. -/
def googleBotUA (version : String) : String :=
  "Mozilla/5.0 AppleWebKit/537.36 (KHTML, like Gecko; compatible; Googlebot/2.1; +http://www.google.com/bot.html) Chrome/"
    ++ version ++ " Safari/537.36"

/-- BingBot User-Agent template instantiated at a Chrome version. -/
def bingBotUA (version : String) : String :=
  "Mozilla/5.0 AppleWebKit/537.36 (KHTML, like Gecko; compatible; bingbot/2.0; +http://www.bing.com/bingbot.htm) Chrome/"
    ++ version ++ " Safari/537.36"

/-- The fixed YandexBot User-Agent (no version verb in the template). -/
def yandexBotUA : String :=
  "Mozilla/5.0 (compatible; YandexBot/3.0; +http://yandex.com/bots)"

/-- The base header map built before the `switch` in
`getCrawlerHeadersWithVersion`. -/
def crawlerBaseHeaders : List (String × String) :=
  [("accept", "text/html,application/xhtml+xml,application/xml;q=0.9,*/*;q=0.8"),
   ("accept-encoding", "gzip, deflate, br"),
   ("accept-language", "en-US,en;q=0.9")]

/-- `getCrawlerHeadersWithVersion`: `CrawlerType` is an integer
(`GoogleBot = 0`, `BingBot = 1`, `YandexBot = 2`); the `switch` sends every
other value to the default arm, which behaves like `GoogleBot`. -/
def Generator.getCrawlerHeadersWithVersion (_ : Generator) (crawlerType : Int)
    (chromeVersion : String) : List (String × String) :=
  if crawlerType = 1 then
    crawlerBaseHeaders ++ [("user-agent", bingBotUA chromeVersion)]
  else if crawlerType = 2 then
    crawlerBaseHeaders ++ [("user-agent", yandexBotUA)]
  else
    crawlerBaseHeaders ++
      [("from", "googlebot(at)google.com"),
       ("user-agent", googleBotUA chromeVersion)]

/-- `GetCrawlerHeaders`: the version is the head of the VersionSet when it is
non-empty, else `approximateVersionForDate(time.Now())`. -/
def Generator.GetCrawlerHeaders (g : Generator) (nowNs : Int) (crawlerType : Int) :
    List (String × String) :=
  match g.versions with
  | [] => g.getCrawlerHeadersWithVersion crawlerType (approximateVersionForDate nowNs)
  | v :: _ => g.getCrawlerHeadersWithVersion crawlerType v

/-- c-wrapper return code: the library was not initialized. -/
def ErrNotInitialized : Int := -1

/-- c-wrapper return code: unknown crawler type. -/
def ErrUnknownCrawler : Int := -3

/-- The exported c-wrapper `GetCrawlerHeaders`: rejects a `nil` global
generator, then rejects a crawler type outside `0..2`, else produces the
header map (whose JSON marshalling cannot fail for a string map; buffer
copying is outside this model). -/
def cGetCrawlerHeaders (globalGenerator : Option Generator) (nowNs : Int)
    (crawlerType : Int) : Except Int (List (String × String)) :=
  match globalGenerator with
  | none => .error ErrNotInitialized
  | some g =>
    if crawlerType < 0 ∨ 2 < crawlerType then .error ErrUnknownCrawler
    else .ok (g.GetCrawlerHeaders nowNs crawlerType)

/-- Go map lookup on the association-list model (keys are pairwise
distinct, so this agrees with `map[string]string` indexing). -/
def lookupHeader : List (String × String) → String → Option String
  | [], _ => none
  | (k, v) :: rest, key => if k = key then some v else lookupHeader rest key

/-- One submatch triple produced by `msEdgeVersionRegex` over the repository
page: the `.deb` filename and the date and time capture groups (the regex
engine is external, so its match list is an oracle input). -/
structure msMatch where
  filename : String
  dateStr : String
  timeStr : String
deriving DecidableEq

/-- `msEdgeRelease`: version plus parsed release instant. -/
structure msEdgeRelease where
  Version : String
  Date : Int
deriving DecidableEq

/-- The version recovered from a matched filename: strip the fixed
`microsoft-edge-stable_` front, then `_amd64.deb`, then `-1`. -/
def msStripVersion (filename : String) : String :=
  goTrimSuf (goTrimSuf (goTrimPre filename "microsoft-edge-stable_") "_amd64.deb") "-1"

/-- The per-match loop of `fetchMicrosoftVersions`: join date and time with a
space, keep entries whose date parses (`time.Parse` with layout
`02-Jan-2006 15:04` is the oracle `parseDate`), pair the stripped version
with the parsed instant. -/
def msReleases (parseDate : String → Option Int) (ms : List msMatch) :
    List msEdgeRelease :=
  ms.filterMap (fun m =>
    (parseDate (m.dateStr ++ " " ++ m.timeStr)).map
      (fun d => ⟨msStripVersion m.filename, d⟩))

/-- The comparison underlying `sort.Slice(..., releases[i].Date.After(releases[j].Date))`:
later or equal dates sort first. -/
def msRelLE (a b : msEdgeRelease) : Prop := b.Date ≤ a.Date

instance : DecidableRel msRelLE :=
  fun a b => inferInstanceAs (Decidable (b.Date ≤ a.Date))

instance : IsTotal msEdgeRelease msRelLE := ⟨fun a b => le_total b.Date a.Date⟩

instance : IsTrans msEdgeRelease msRelLE := ⟨fun _ _ _ h1 h2 => le_trans h2 h1⟩

/-- The releases sorted most-recent-first (the source's `sort.Slice` is an
unspecified-order sort over a strict comparison; any date-sorted permutation
has the properties claimed of the output). -/
def msSorted (parseDate : String → Option Int) (ms : List msMatch) :
    List msEdgeRelease :=
  List.insertionSort msRelLE (msReleases parseDate ms)

/-- The de-duplication loop of `fetchMicrosoftVersions`: `seen` plays the
role of the `uniqueVersions` set, and the first occurrence of every version
is kept in order. -/
def dedupFirstAux (seen : List String) : List String → List String
  | [] => []
  | v :: rest =>
    if v ∈ seen then dedupFirstAux seen rest
    else v :: dedupFirstAux (v :: seen) rest

/-- De-duplication keeping first occurrences, starting from no seen set. -/
def dedupFirst (l : List String) : List String := dedupFirstAux [] l

/-- `versionsToKeepFromMS`. -/
def versionsToKeepFromMS : Nat := 20

/-- `fetchMicrosoftVersions` after the HTTP transfer succeeded on a body
whose regex matches are `matches`: fail on zero matches, fail when no entry
parses to a valid date, else sort by date descending, de-duplicate by
version keeping first occurrences, and keep at most 20 (the loop's early
`break` at `limit = min 20 (number of releases)` yields the same list as
truncating after de-duplication). -/
def fetchMicrosoftVersions (parseDate : String → Option Int)
    (ms : List msMatch) : Except String (List String) :=
  if ms = [] then
    .error "no browser versions found on the page"
  else if msReleases parseDate ms = [] then
    .error "no valid version parsed from the Microsoft Edge repository page"
  else
    .ok ((dedupFirst ((msSorted parseDate ms).map msEdgeRelease.Version)).take
      versionsToKeepFromMS)

/-- Scheme and host of a parsed URL: all that `GetHeaders` reads back. -/
structure URL where
  scheme : String
  host : String
deriving DecidableEq

/-- `url.Parse("https://www.google.com/search?q=")`, the fallback target. -/
def fallbackURL : URL := ⟨"https", "www.google.com"⟩

/-- `fmt.Sprintf("%s://%s", u.Scheme, u.Host)`. -/
def schemeHost (u : URL) : String := u.scheme ++ "://" ++ u.host

/-- The fields of `browserInfo` that `GetHeaders` writes into the map; they
come out of `parseUserAgent` (regex extraction with graceful defaults),
supplied here as an oracle value. -/
structure browserInfo where
  UserAgent : String
  MajorVersion : String
  FullVersion : String
  Platform : String
  SecBrandName : String

/-- The weighted GREASE version pool (`99` repeated to be likelier). -/
def greaseVersions : List String := ["8", "24", "99", "99", "99", "99"]

/-- The character pool ``" ;;:/??==()__-,.\""`` for GREASE brands. -/
def greaseChars : List Char :=
  [' ', ';', ';', ':', '/', '?', '?', '=', '=', '(', ')', '_', '_', '-', ',', '.', '"']

/-- `generateGreaseBrand`: base brand `Not A Brand` with each of its two
spaces replaced by a pool character; the random draws are the index
arguments. -/
def generateGreaseBrand (vi ci1 ci2 : Nat) : String × String :=
  let version := greaseVersions.getD (vi % greaseVersions.length) ""
  let c1 := greaseChars.getD (ci1 % greaseChars.length) ' '
  let c2 := greaseChars.getD (ci2 % greaseChars.length) ' '
  ("Not" ++ String.singleton c1 ++ "A" ++ String.singleton c2 ++ "Brand", version)

/-- `screenResolution`. -/
structure screenResolution where
  Width : Int
  Height : Int
deriving DecidableEq

/-- `commonResolutions`, the fixed desktop-resolution catalog. -/
def commonResolutions : List screenResolution :=
  [⟨1920, 1080⟩, ⟨1366, 768⟩, ⟨1536, 864⟩, ⟨1280, 720⟩, ⟨1440, 900⟩, ⟨2560, 1440⟩]

/-- `viewportHeightSubtractions`. -/
def viewportHeightSubtractions : List Int := [90, 128, 150, 188]

/-- `viewportWidthSubtractions`. -/
def viewportWidthSubtractions : List Int := [2, 4, 64, 128]

/-- `commonResolutions[rand.IntN(len(commonResolutions))]`. -/
def pickResolution (ri : Nat) : screenResolution :=
  commonResolutions.get ⟨ri % commonResolutions.length, Nat.mod_lt _ (by decide)⟩

/-- `viewportHeightSubtractions[rand.IntN(...)]`. -/
def pickHeightSubtraction (hi : Nat) : Int :=
  viewportHeightSubtractions.get ⟨hi % viewportHeightSubtractions.length, Nat.mod_lt _ (by decide)⟩

/-- `viewportWidthSubtractions[rand.IntN(...)]`. -/
def pickWidthSubtraction (wi : Nat) : Int :=
  viewportWidthSubtractions.get ⟨wi % viewportWidthSubtractions.length, Nat.mod_lt _ (by decide)⟩

/-- `fmt.Sprintf("\"%s\"", s)`. -/
def quoted (s : String) : String := "\"" ++ s ++ "\""

/-- `GetHeaders`.  `info` is the `parseUserAgent` output for the generated
User-Agent, `parse` the `url.Parse` oracle (`none` is a parse error),
`targetURL` the optional variadic argument, and the `Nat` arguments the
random draws.  An unsupplied or empty or unparsable URL falls back to the
fixed search URL and leaves `origin` empty, and the `origin` key is added
only for a non-empty `origin` value. -/
def Generator.GetHeaders (_ : Generator) (info : browserInfo)
    (parse : String → Option URL) (targetURL : Option String)
    (gvi gc1 gc2 ri hi wi : Nat) : List (String × String) :=
  let parsed : Option URL :=
    match targetURL with
    | some s => if s = "" then none else parse s
    | none => none
  let u := parsed.getD fallbackURL
  let referer := schemeHost u
  let origin := if parsed.isSome then referer else ""
  let gb := generateGreaseBrand gvi gc1 gc2
  let secChUa := quoted gb.1 ++ ";v=" ++ quoted gb.2 ++ ", " ++ quoted "Chromium"
    ++ ";v=" ++ quoted info.MajorVersion ++ ", " ++ quoted info.SecBrandName
    ++ ";v=" ++ quoted info.MajorVersion
  let resolution := pickResolution ri
  let heightSubtraction := pickHeightSubtraction hi
  let widthSubtraction := pickWidthSubtraction wi
  let viewportHeight := toString (resolution.Height - heightSubtraction)
  let viewportWidth := toString (resolution.Width - widthSubtraction)
  let base := [
    ("user-agent", info.UserAgent),
    ("accept", "text/html,application/xhtml+xml,application/xml;q=0.9,image/avif,image/webp,image/apng,*/*;q=0.8,application/signed-exchange;v=b3;q=0.7"),
    ("accept-language", "en-US,en;q=0.9"),
    ("referer", referer),
    ("connection", "keep-alive"),
    ("sec-ch-ua", secChUa),
    ("sec-ch-ua-full-version", quoted info.FullVersion),
    ("sec-ch-ua-mobile", "?0"),
    ("sec-ch-ua-platform", quoted info.Platform),
    ("sec-ch-ua-arch", quoted "x86"),
    ("sec-ch-ua-bitness", quoted "64"),
    ("sec-ch-ua-form-factors", quoted "Desktop"),
    ("sec-ch-ua-platform-version", quoted "19.0.0"),
    ("sec-ch-ua-model", quoted ""),
    ("sec-ch-viewport-height", quoted viewportHeight),
    ("sec-ch-viewport-width", quoted viewportWidth),
    ("sec-fetch-dest", "document"),
    ("sec-fetch-mode", "navigate"),
    ("sec-fetch-site", "same-origin"),
    ("sec-fetch-user", "?1"),
    ("upgrade-insecure-requests", "1"),
    ("priority", "u=0, i")]
  if origin = "" then base else base ++ [("origin", origin)]

/-- `Rat.floor` agrees with the Mathlib floor. -/
theorem ratFloor_eq_floor (q : ℚ) : q.floor = ⌊q⌋ :=
  (Rat.floor_def' q).trans Rat.floor_def.symm

/-- `goTrunc` truncates toward zero. -/
theorem goTrunc_eq (q : ℚ) : goTrunc q = if q < 0 then ⌈q⌉ else ⌊q⌋ := by
  unfold goTrunc
  rw [ratFloor_eq_floor, ratFloor_eq_floor, Int.floor_neg]
  simp

/-- `goRound` as Mathlib floors. -/
theorem goRound_eq (q : ℚ) : goRound q = if q < 0 then -⌊-q + 1/2⌋ else ⌊q + 1/2⌋ := by
  unfold goRound
  rw [ratFloor_eq_floor, ratFloor_eq_floor]

/-- Truncation of a non-negative rational is non-negative. -/
theorem goTrunc_nonneg {q : ℚ} (h : 0 ≤ q) : 0 ≤ goTrunc q := by
  rw [goTrunc_eq, if_neg (not_lt.mpr h)]
  exact Int.floor_nonneg.mpr h

/-- Rounding of a non-negative rational is non-negative. -/
theorem goRound_nonneg {q : ℚ} (h : 0 ≤ q) : 0 ≤ goRound q := by
  rw [goRound_eq, if_neg (not_lt.mpr h)]
  exact Int.floor_nonneg.mpr (by linarith)

/-- Elapsed days are non-negative from the anchor on. -/
theorem approxT_nonneg {dNs : Int} (h : 0 ≤ dNs) : 0 ≤ approxT dNs := by
  unfold approxT nsPerDay
  positivity

/-- The five approximated versions, spelled out. -/
theorem approximateVersions_eq (nowNs : Int) :
    approximateVersions nowNs =
      [approximateVersionForDate nowNs,
       approximateVersionForDate (nowNs - 7 * nsPerDay),
       approximateVersionForDate (nowNs - 14 * nsPerDay),
       approximateVersionForDate (nowNs - 21 * nsPerDay),
       approximateVersionForDate (nowNs - 28 * nsPerDay)] := by
  simp only [approximateVersions, List.range_succ, List.range_zero,
    List.map_append, List.map_cons, List.map_nil, List.nil_append,
    List.cons_append, List.singleton_append]
  norm_num

/-- C1: `updateVersions` returns a nil error in every outcome of the race,
and in the all-failed and timed-out outcomes it installs the approximator's
output: the non-empty five-element list for today and the four preceding
weekly offsets. -/
theorem updateVersions_absorbs_failure (g : Generator) (nowNs : Int) (o : netOutcome) :
    (g.updateVersions nowNs o).1 = none ∧
    ((o = .allFailed ∨ o = .timedOut) →
      (g.updateVersions nowNs o).2.versions = approximateVersions nowNs ∧
      approximateVersions nowNs =
        [approximateVersionForDate nowNs,
         approximateVersionForDate (nowNs - 7 * nsPerDay),
         approximateVersionForDate (nowNs - 14 * nsPerDay),
         approximateVersionForDate (nowNs - 21 * nsPerDay),
         approximateVersionForDate (nowNs - 28 * nsPerDay)] ∧
      (g.updateVersions nowNs o).2.versions ≠ []) := by
  have hav := approximateVersions_eq nowNs
  cases o with
  | firstSuccess vs =>
    exact ⟨rfl, by rintro (h | h) <;> cases h⟩
  | allFailed =>
    refine ⟨rfl, fun _ => ⟨rfl, hav, ?_⟩⟩
    show approximateVersions nowNs ≠ []
    rw [hav]
    simp
  | timedOut =>
    refine ⟨rfl, fun _ => ⟨rfl, hav, ?_⟩⟩
    show approximateVersions nowNs ≠ []
    rw [hav]
    simp

/-- Witness for C1 at a concrete state and outcome. -/
theorem updateVersions_absorbs_failure_witness :
    ((Generator.mk [] 0).updateVersions 0 .allFailed).1 = none ∧
    ((Generator.mk [] 0).updateVersions 0 .allFailed).2.versions = approximateVersions 0 ∧
    ((Generator.mk [] 0).updateVersions 0 .allFailed).2.versions ≠ [] := by
  have h := updateVersions_absorbs_failure (Generator.mk [] 0) 0 .allFailed
  exact ⟨h.1, (h.2 (Or.inl rfl)).1, (h.2 (Or.inl rfl)).2.2⟩

/-- C6: `loadFromDiskCache` returns `false` and leaves the generator state
unchanged on a read failure, malformed content, a stale timestamp or an
empty version list, and on success returns `true` and installs the record's
versions. -/
theorem loadFromDiskCache_spec (g : Generator) (nowNs : Int) :
    g.loadFromDiskCache nowNs .readError = (false, g) ∧
    g.loadFromDiskCache nowNs .malformed = (false, g) ∧
    (∀ c, g.diskCacheTTL < nowNs - c.timestamp →
      g.loadFromDiskCache nowNs (.record c) = (false, g)) ∧
    (∀ c, c.versions = [] →
      g.loadFromDiskCache nowNs (.record c) = (false, g)) ∧
    (∀ c, nowNs - c.timestamp ≤ g.diskCacheTTL → c.versions ≠ [] →
      g.loadFromDiskCache nowNs (.record c) = (true, { g with versions := c.versions })) := by
  refine ⟨rfl, rfl, ?_, ?_, ?_⟩
  · intro c h
    simp only [Generator.loadFromDiskCache]
    rw [if_pos h]
  · intro c h
    simp only [Generator.loadFromDiskCache]
    split
    · rfl
    · simp [h]
  · intro c h1 h2
    simp only [Generator.loadFromDiskCache]
    rw [if_neg (not_lt.mpr h1), if_neg h2]

/-- Witness for C6 on concrete records: stale, empty and fresh. -/
theorem loadFromDiskCache_spec_witness :
    (Generator.mk ["a"] 10).loadFromDiskCache 100 .readError = (false, Generator.mk ["a"] 10) ∧
    (Generator.mk ["a"] 10).loadFromDiskCache 100 (.record ⟨0, ["b"]⟩) =
      (false, Generator.mk ["a"] 10) ∧
    (Generator.mk ["a"] 10).loadFromDiskCache 100 (.record ⟨95, []⟩) =
      (false, Generator.mk ["a"] 10) ∧
    (Generator.mk ["a"] 10).loadFromDiskCache 100 (.record ⟨95, ["b"]⟩) =
      (true, Generator.mk ["b"] 10) := by
  have h := loadFromDiskCache_spec (Generator.mk ["a"] 10) 100
  exact ⟨h.1, h.2.2.1 ⟨0, ["b"]⟩ (by decide), h.2.2.2.1 ⟨95, []⟩ rfl,
    h.2.2.2.2 ⟨95, ["b"]⟩ (by decide) (by decide)⟩

/-- C7: saving a non-empty VersionSet writes the record with the save-time
timestamp, and loading that record within the TTL window succeeds and
reproduces exactly the saved ordered version list. -/
theorem saveToDiskCache_roundtrip (g gLoad : Generator) (saveNs loadNs : Int)
    (hne : g.versions ≠ []) (httl : loadNs - saveNs ≤ gLoad.diskCacheTTL) :
    g.saveToDiskCache saveNs = some ⟨saveNs, g.versions⟩ ∧
    gLoad.loadFromDiskCache loadNs (.record ⟨saveNs, g.versions⟩) =
      (true, { gLoad with versions := g.versions }) := by
  constructor
  · simp [Generator.saveToDiskCache, hne]
  · simp only [Generator.loadFromDiskCache]
    rw [if_neg (not_lt.mpr httl), if_neg hne]

/-- Witness for C7 at a concrete set, save time and load time. -/
theorem saveToDiskCache_roundtrip_witness :
    (Generator.mk ["140.0.1.2", "139.0.3.4"] 0).saveToDiskCache 5 =
      some ⟨5, ["140.0.1.2", "139.0.3.4"]⟩ ∧
    (Generator.mk [] 100).loadFromDiskCache 50
        (.record ⟨5, ["140.0.1.2", "139.0.3.4"]⟩) =
      (true, Generator.mk ["140.0.1.2", "139.0.3.4"] 100) := by
  have h := saveToDiskCache_roundtrip (Generator.mk ["140.0.1.2", "139.0.3.4"] 0)
    (Generator.mk [] 100) 5 50 (by decide) (by decide)
  exact ⟨h.1, h.2⟩

/-- C10: with an empty VersionSet `Get` returns the Chrome template with the
whole five-element approximated list rendered as one bracketed,
space-separated string in the single version slot. -/
theorem Get_empty_approximates (g : Generator) (nowNs : Int) (vi : Nat) (coin : Bool)
    (h : g.versions = []) :
    g.Get nowNs vi coin =
      chromeUATemplate (goFormatStringSlice (approximateVersions nowNs)) ∧
    (approximateVersions nowNs).length = 5 ∧
    goFormatStringSlice (approximateVersions nowNs) =
      "[" ++ String.intercalate " " (approximateVersions nowNs) ++ "]" := by
  refine ⟨?_, ?_, rfl⟩
  · simp [Generator.Get, h]
  · rw [approximateVersions_eq]
    rfl

/-- Witness for C10 at a concrete empty-state generator. -/
theorem Get_empty_approximates_witness :
    (Generator.mk [] 0).Get 0 3 true =
      chromeUATemplate (goFormatStringSlice (approximateVersions 0)) ∧
    (approximateVersions 0).length = 5 := by
  have h := Get_empty_approximates (Generator.mk [] 0) 0 3 true rfl
  exact ⟨h.1, h.2.1⟩

/-- C9: the Yandex variant carries the fixed versionless User-Agent and no
`from` key, the Google variant always carries a `from` key, and the version
substituted into the Google and Bing templates is the head of the VersionSet
when it is non-empty, else the approximator's value for the current date. -/
theorem GetCrawlerHeaders_templates (g : Generator) (nowNs : Int) :
    lookupHeader (g.GetCrawlerHeaders nowNs 2) "user-agent" = some yandexBotUA ∧
    lookupHeader (g.GetCrawlerHeaders nowNs 2) "from" = none ∧
    lookupHeader (g.GetCrawlerHeaders nowNs 0) "from" = some "googlebot(at)google.com" ∧
    (∀ v rest, g.versions = v :: rest →
      lookupHeader (g.GetCrawlerHeaders nowNs 0) "user-agent" = some (googleBotUA v) ∧
      lookupHeader (g.GetCrawlerHeaders nowNs 1) "user-agent" = some (bingBotUA v)) ∧
    (g.versions = [] →
      lookupHeader (g.GetCrawlerHeaders nowNs 0) "user-agent"
        = some (googleBotUA (approximateVersionForDate nowNs)) ∧
      lookupHeader (g.GetCrawlerHeaders nowNs 1) "user-agent"
        = some (bingBotUA (approximateVersionForDate nowNs))) := by
  cases hv : g.versions with
  | nil =>
    refine ⟨?_, ?_, ?_, ?_, ?_⟩ <;>
      simp [Generator.GetCrawlerHeaders, Generator.getCrawlerHeadersWithVersion,
        crawlerBaseHeaders, lookupHeader, hv]
  | cons v rest =>
    refine ⟨?_, ?_, ?_, ?_, ?_⟩ <;>
      simp [Generator.GetCrawlerHeaders, Generator.getCrawlerHeadersWithVersion,
        crawlerBaseHeaders, lookupHeader, hv]

/-- Witness for C9 at a populated and at an empty generator. -/
theorem GetCrawlerHeaders_templates_witness :
    lookupHeader ((Generator.mk ["138.0.7204.49"] 0).GetCrawlerHeaders 0 2) "user-agent"
      = some yandexBotUA ∧
    lookupHeader ((Generator.mk ["138.0.7204.49"] 0).GetCrawlerHeaders 0 2) "from" = none ∧
    lookupHeader ((Generator.mk ["138.0.7204.49"] 0).GetCrawlerHeaders 0 0) "user-agent"
      = some (googleBotUA "138.0.7204.49") ∧
    lookupHeader ((Generator.mk ["138.0.7204.49"] 0).GetCrawlerHeaders 0 1) "user-agent"
      = some (bingBotUA "138.0.7204.49") ∧
    lookupHeader ((Generator.mk [] 0).GetCrawlerHeaders 7 0) "user-agent"
      = some (googleBotUA (approximateVersionForDate 7)) := by
  have h1 := GetCrawlerHeaders_templates (Generator.mk ["138.0.7204.49"] 0) 0
  have h2 := GetCrawlerHeaders_templates (Generator.mk [] 0) 7
  exact ⟨h1.1, h1.2.1, (h1.2.2.2.1 "138.0.7204.49" [] rfl).1,
    (h1.2.2.2.1 "138.0.7204.49" [] rfl).2, (h2.2.2.2.2 rfl).1⟩

/-- C3: with an initialized generator the exported crawler-header entry
point fails exactly on the crawler types outside `0..2`, answering
`ErrUnknownCrawler` there, and returns the header map on every in-range
type. -/
theorem cGetCrawlerHeaders_error_iff (g : Generator) (nowNs crawlerType : Int) :
    ((∃ hs, cGetCrawlerHeaders (some g) nowNs crawlerType = .ok hs) ↔
      0 ≤ crawlerType ∧ crawlerType ≤ 2) ∧
    ((crawlerType < 0 ∨ 2 < crawlerType) →
      cGetCrawlerHeaders (some g) nowNs crawlerType = .error ErrUnknownCrawler) ∧
    ((0 ≤ crawlerType ∧ crawlerType ≤ 2) →
      cGetCrawlerHeaders (some g) nowNs crawlerType =
        .ok (g.GetCrawlerHeaders nowNs crawlerType)) := by
  have hdef : cGetCrawlerHeaders (some g) nowNs crawlerType =
      (if crawlerType < 0 ∨ 2 < crawlerType then .error ErrUnknownCrawler
       else .ok (g.GetCrawlerHeaders nowNs crawlerType)) := rfl
  by_cases h : crawlerType < 0 ∨ 2 < crawlerType
  · rw [hdef, if_pos h]
    refine ⟨⟨?_, ?_⟩, fun _ => rfl, fun hc => False.elim (by omega)⟩
    · rintro ⟨hs, hEq⟩
      cases hEq
    · intro hc
      exact False.elim (by omega)
  · rw [hdef, if_neg h]
    exact ⟨⟨fun _ => by omega, fun _ => ⟨_, rfl⟩⟩,
      fun hc => False.elim (by omega), fun _ => rfl⟩

/-- Witness for C3: type `7` is rejected, type `2` succeeds. -/
theorem cGetCrawlerHeaders_error_iff_witness :
    cGetCrawlerHeaders (some (Generator.mk ["138.0.7204.49"] 0)) 0 7 =
      .error ErrUnknownCrawler ∧
    cGetCrawlerHeaders (some (Generator.mk ["138.0.7204.49"] 0)) 0 2 =
      .ok ((Generator.mk ["138.0.7204.49"] 0).GetCrawlerHeaders 0 2) := by
  have h := cGetCrawlerHeaders_error_iff (Generator.mk ["138.0.7204.49"] 0) 0 7
  have h2 := cGetCrawlerHeaders_error_iff (Generator.mk ["138.0.7204.49"] 0) 0 2
  exact ⟨h.2.1 (Or.inr (by decide)), h2.2.2 ⟨by decide, by decide⟩⟩

/-- A scheme+host rendering is never the empty string. -/
theorem schemeHost_ne_empty (u : URL) : schemeHost u ≠ "" := by
  intro h
  have hlen := congrArg String.length h
  simp only [schemeHost, String.length_append] at hlen
  have h3 : ("://" : String).length = 3 := rfl
  have h0 : ("" : String).length = 0 := rfl
  omega

/-- C4: with no target URL, an empty one, or an unparsable one, `GetHeaders`
falls back to the fixed search-engine referer and omits the `origin` key;
with a URL that parses, referer and origin are both its scheme+host. -/
theorem GetHeaders_referer_origin (g : Generator) (info : browserInfo)
    (parse : String → Option URL) (gvi gc1 gc2 ri hi wi : Nat) :
    (∀ targetURL, (targetURL = none ∨ targetURL = some "" ∨
        (∃ s, targetURL = some s ∧ parse s = none)) →
      lookupHeader (g.GetHeaders info parse targetURL gvi gc1 gc2 ri hi wi) "referer"
        = some "https://www.google.com" ∧
      lookupHeader (g.GetHeaders info parse targetURL gvi gc1 gc2 ri hi wi) "origin"
        = none) ∧
    (∀ s u, s ≠ "" → parse s = some u →
      lookupHeader (g.GetHeaders info parse (some s) gvi gc1 gc2 ri hi wi) "referer"
        = some (schemeHost u) ∧
      lookupHeader (g.GetHeaders info parse (some s) gvi gc1 gc2 ri hi wi) "origin"
        = some (schemeHost u)) := by
  constructor
  · rintro targetURL (rfl | rfl | ⟨s, rfl, hps⟩)
    · simp [Generator.GetHeaders, lookupHeader, fallbackURL, schemeHost]
    · simp [Generator.GetHeaders, lookupHeader, fallbackURL, schemeHost]
    · by_cases hs : s = "" <;>
        simp [Generator.GetHeaders, lookupHeader, fallbackURL, schemeHost, hs, hps]
  · intro s u hs hps
    simp [Generator.GetHeaders, lookupHeader, hs, hps, schemeHost_ne_empty u]

/-- Witness for C4: the no-URL fallback and the spec's example URL. -/
theorem GetHeaders_referer_origin_witness :
    lookupHeader ((Generator.mk [] 0).GetHeaders
        ⟨"ua", "138", "138.0.1.2", "Windows", "Google Chrome"⟩
        (fun s => if s = "https://api.example.com/v1/data"
          then some ⟨"https", "api.example.com"⟩ else none)
        none 0 0 0 0 0 0) "referer" = some "https://www.google.com" ∧
    lookupHeader ((Generator.mk [] 0).GetHeaders
        ⟨"ua", "138", "138.0.1.2", "Windows", "Google Chrome"⟩
        (fun s => if s = "https://api.example.com/v1/data"
          then some ⟨"https", "api.example.com"⟩ else none)
        none 0 0 0 0 0 0) "origin" = none ∧
    lookupHeader ((Generator.mk [] 0).GetHeaders
        ⟨"ua", "138", "138.0.1.2", "Windows", "Google Chrome"⟩
        (fun s => if s = "https://api.example.com/v1/data"
          then some ⟨"https", "api.example.com"⟩ else none)
        (some "https://api.example.com/v1/data") 0 0 0 0 0 0) "referer"
      = some "https://api.example.com" ∧
    lookupHeader ((Generator.mk [] 0).GetHeaders
        ⟨"ua", "138", "138.0.1.2", "Windows", "Google Chrome"⟩
        (fun s => if s = "https://api.example.com/v1/data"
          then some ⟨"https", "api.example.com"⟩ else none)
        (some "https://api.example.com/v1/data") 0 0 0 0 0 0) "origin"
      = some "https://api.example.com" := by
  have h := GetHeaders_referer_origin (Generator.mk [] 0)
    ⟨"ua", "138", "138.0.1.2", "Windows", "Google Chrome"⟩
    (fun s => if s = "https://api.example.com/v1/data"
      then some ⟨"https", "api.example.com"⟩ else none) 0 0 0 0 0 0
  have h1 := h.1 none (Or.inl rfl)
  have h2 := h.2 "https://api.example.com/v1/data" ⟨"https", "api.example.com"⟩
    (by decide) (by simp)
  exact ⟨h1.1, h1.2, h2.1, h2.2⟩

/-- For every catalog resolution and every subtraction, the remaining
viewport dimension is strictly positive and strictly below the screen
dimension. -/
theorem viewport_pairs_pos :
    (∀ r ∈ commonResolutions, ∀ s ∈ viewportHeightSubtractions,
      0 < r.Height - s ∧ r.Height - s < r.Height) ∧
    (∀ r ∈ commonResolutions, ∀ s ∈ viewportWidthSubtractions,
      0 < r.Width - s ∧ r.Width - s < r.Width) := by decide

/-- C5: every header map carries `sec-ch-viewport-height` strictly below the
chosen resolution height and `sec-ch-viewport-width` strictly below the
chosen width, and every catalog resolution/subtraction pair keeps the
viewport strictly positive and strictly inside the screen. -/
theorem GetHeaders_viewport_invariant (g : Generator) (info : browserInfo)
    (parse : String → Option URL) (targetURL : Option String)
    (gvi gc1 gc2 ri hi wi : Nat) :
    lookupHeader (g.GetHeaders info parse targetURL gvi gc1 gc2 ri hi wi)
        "sec-ch-viewport-height"
      = some (quoted (toString ((pickResolution ri).Height - pickHeightSubtraction hi))) ∧
    0 < (pickResolution ri).Height - pickHeightSubtraction hi ∧
    (pickResolution ri).Height - pickHeightSubtraction hi < (pickResolution ri).Height ∧
    lookupHeader (g.GetHeaders info parse targetURL gvi gc1 gc2 ri hi wi)
        "sec-ch-viewport-width"
      = some (quoted (toString ((pickResolution ri).Width - pickWidthSubtraction wi))) ∧
    0 < (pickResolution ri).Width - pickWidthSubtraction wi ∧
    (pickResolution ri).Width - pickWidthSubtraction wi < (pickResolution ri).Width ∧
    (∀ r ∈ commonResolutions, ∀ s ∈ viewportHeightSubtractions,
      0 < r.Height - s ∧ r.Height - s < r.Height) ∧
    (∀ r ∈ commonResolutions, ∀ s ∈ viewportWidthSubtractions,
      0 < r.Width - s ∧ r.Width - s < r.Width) := by
  have hp := viewport_pairs_pos
  have hrm : pickResolution ri ∈ commonResolutions := List.get_mem _ _ _
  have hhm : pickHeightSubtraction hi ∈ viewportHeightSubtractions := List.get_mem _ _ _
  have hwm : pickWidthSubtraction wi ∈ viewportWidthSubtractions := List.get_mem _ _ _
  have hh := hp.1 _ hrm _ hhm
  have hw := hp.2 _ hrm _ hwm
  refine ⟨?_, hh.1, hh.2, ?_, hw.1, hw.2, hp.1, hp.2⟩ <;>
    · simp only [Generator.GetHeaders]
      split <;> (try split) <;> simp [lookupHeader]

/-- C2 (amended): the approximator is a total function of the date (hence
deterministic), its output is always the dot-joining of the four rendered
components, and from the anchor date `2025-05-14T00:00:00Z` on all four
components are non-negative. -/
theorem approximateVersionForDate_valid_from_anchor (dNs : Int) (h : 0 ≤ dNs) :
    approximateVersionForDate dNs =
      toString (approxMajor dNs) ++ ".0." ++ toString (approxBuild dNs)
        ++ "." ++ toString (approxPatch dNs) ∧
    0 ≤ approxMajor dNs ∧ 0 ≤ approxBuild dNs ∧ 0 ≤ approxPatch dNs := by
  have ht := approxT_nonneg h
  have htdiv : 0 ≤ approxT dNs / 31 := by positivity
  refine ⟨rfl, ?_, ?_, ?_⟩
  · exact goTrunc_nonneg (by unfold approxMajorQ; linarith)
  · apply goTrunc_nonneg
    unfold approxBuildQ
    split
    · next build heq =>
      unfold knownBuild at heq
      split_ifs at heq <;> (cases heq; norm_num)
    · next heq =>
      unfold approxMajorQ
      have : (136 : ℚ) + approxT dNs / 31 - 136 = approxT dNs / 31 := by ring
      rw [this]
      linarith
  · apply goRound_nonneg
    have : 0 ≤ (88 : ℚ)/100 * approxT dNs := by positivity
    linarith

/-- Witness for the amended C2 at the anchor date itself. -/
theorem approximateVersionForDate_valid_from_anchor_witness :
    0 ≤ (0 : Int) ∧
    (approximateVersionForDate 0 =
      toString (approxMajor 0) ++ ".0." ++ toString (approxBuild 0)
        ++ "." ++ toString (approxPatch 0) ∧
    0 ≤ approxMajor 0 ∧ 0 ≤ approxBuild 0 ∧ 0 ≤ approxPatch 0) :=
  ⟨le_refl 0, approximateVersionForDate_valid_from_anchor 0 (le_refl 0)⟩

/-- C2 counterexample: at `1970-01-01T00:00:00Z`, 20222 days before the
anchor, all three computed components are negative, so the returned string
is not four non-negative decimal integer components joined by dots. -/
theorem approximateVersionForDate_pre_anchor_counterexample :
    approxMajor (-20222 * nsPerDay) = -516 ∧
    approxBuild (-20222 * nsPerDay) = -26817 ∧
    approxPatch (-20222 * nsPerDay) = -17733 ∧
    approxMajor (-20222 * nsPerDay) < 0 ∧
    approximateVersionForDate (-20222 * nsPerDay) = "-516.0.-26817.-17733" := by
  have ht : approxT (-20222 * nsPerDay) = -20222 := by
    unfold approxT nsPerDay
    push_cast
    norm_num
  have hM : approxMajorQ (-20222 * nsPerDay) = -16006/31 := by
    unfold approxMajorQ
    rw [ht]
    norm_num
  have hMajor : approxMajor (-20222 * nsPerDay) = -516 := by
    unfold approxMajor
    rw [hM, goTrunc_eq, if_pos (by norm_num),
      show ((-16006 : ℚ)/31) = -(16006/31) by ring, Int.ceil_neg]
    norm_num
  have hkb : knownBuild (approxMajor (-20222 * nsPerDay)) = none := by
    rw [hMajor]
    simp [knownBuild]
  have hBQ : approxBuildQ (-20222 * nsPerDay) = -831351/31 := by
    unfold approxBuildQ
    rw [hkb]
    show (7103 + 52 * (approxMajorQ (-20222 * nsPerDay) - 136) : ℚ) = -831351/31
    rw [hM]
    norm_num
  have hBuild : approxBuild (-20222 * nsPerDay) = -26817 := by
    unfold approxBuild
    rw [hBQ, goTrunc_eq, if_pos (by norm_num),
      show ((-831351 : ℚ)/31) = -(831351/31) by ring, Int.ceil_neg]
    norm_num
  have hPatch : approxPatch (-20222 * nsPerDay) = -17733 := by
    unfold approxPatch
    rw [ht, goRound_eq, if_pos (by norm_num)]
    norm_num
  refine ⟨hMajor, hBuild, hPatch, by rw [hMajor]; norm_num, ?_⟩
  show toString (approxMajor (-20222 * nsPerDay)) ++ ".0."
      ++ toString (approxBuild (-20222 * nsPerDay)) ++ "."
      ++ toString (approxPatch (-20222 * nsPerDay)) = "-516.0.-26817.-17733"
  rw [hMajor, hBuild, hPatch]
  decide

/-- The de-duplication loop yields a sublist of its input. -/
theorem dedupFirstAux_sublist : ∀ (l seen : List String),
    (dedupFirstAux seen l).Sublist l := by
  intro l
  induction l with
  | nil =>
    intro seen
    exact List.Sublist.refl _
  | cons v rest ih =>
    intro seen
    simp only [dedupFirstAux]
    split
    · exact (ih seen).cons v
    · exact (ih (v :: seen)).cons₂ v

/-- De-duplication yields a sublist of its input. -/
theorem dedupFirst_sublist (l : List String) : (dedupFirst l).Sublist l :=
  dedupFirstAux_sublist l []

/-- Whatever the loop emits was not in the seen set. -/
theorem dedupFirstAux_not_mem_seen : ∀ (l seen : List String) (x : String),
    x ∈ dedupFirstAux seen l → x ∉ seen := by
  intro l
  induction l with
  | nil =>
    intro seen x hx
    cases hx
  | cons v rest ih =>
    intro seen x hx
    simp only [dedupFirstAux] at hx
    split at hx
    · exact ih seen x hx
    · next hnot =>
      rcases List.mem_cons.mp hx with rfl | hx2
      · exact hnot
      · intro hxs
        exact ih (v :: seen) x hx2 (List.mem_cons_of_mem _ hxs)

/-- The de-duplication loop never emits an element twice. -/
theorem dedupFirstAux_nodup : ∀ (l seen : List String), (dedupFirstAux seen l).Nodup := by
  intro l
  induction l with
  | nil =>
    intro seen
    exact List.nodup_nil
  | cons v rest ih =>
    intro seen
    simp only [dedupFirstAux]
    split
    · exact ih seen
    · refine List.nodup_cons.mpr ⟨?_, ih (v :: seen)⟩
      intro hmem
      exact dedupFirstAux_not_mem_seen _ _ _ hmem (List.mem_cons_self _ _)

/-- De-duplication never keeps an element twice. -/
theorem dedupFirst_nodup (l : List String) : (dedupFirst l).Nodup :=
  dedupFirstAux_nodup l []

/-- C8: a successful Microsoft fetch yields a duplicate-free list of at most
20 entries, drawn in order from the date-descending sorted releases, each
entry being a matched filename with the fixed affixes stripped; it fails
exactly when the regex produced no matches or no match parsed to a valid
date. -/
theorem fetchMicrosoftVersions_spec (parseDate : String → Option Int)
    (ms : List msMatch) :
    ((∃ e, fetchMicrosoftVersions parseDate ms = .error e) ↔
      (ms = [] ∨ msReleases parseDate ms = [])) ∧
    (∀ vs, fetchMicrosoftVersions parseDate ms = .ok vs →
      vs.Nodup ∧
      vs.length ≤ 20 ∧
      vs.Sublist ((msSorted parseDate ms).map msEdgeRelease.Version) ∧
      ((msSorted parseDate ms).map msEdgeRelease.Date).Sorted (fun a b => b ≤ a) ∧
      (∀ v ∈ vs, ∃ m ∈ ms, v = msStripVersion m.filename)) := by
  constructor
  · by_cases h1 : ms = []
    · simp [fetchMicrosoftVersions, h1]
    · by_cases h2 : msReleases parseDate ms = [] <;>
        simp [fetchMicrosoftVersions, h1, h2]
  · intro vs hvs
    by_cases h1 : ms = []
    · unfold fetchMicrosoftVersions at hvs
      rw [if_pos h1] at hvs
      cases hvs
    by_cases h2 : msReleases parseDate ms = []
    · unfold fetchMicrosoftVersions at hvs
      rw [if_neg h1, if_pos h2] at hvs
      cases hvs
    unfold fetchMicrosoftVersions at hvs
    rw [if_neg h1, if_neg h2] at hvs
    injection hvs with hvs
    subst hvs
    have hsub : ((dedupFirst ((msSorted parseDate ms).map msEdgeRelease.Version)).take
          versionsToKeepFromMS).Sublist
        ((msSorted parseDate ms).map msEdgeRelease.Version) :=
      (List.take_sublist _ _).trans (dedupFirst_sublist _)
    refine ⟨?_, ?_, hsub, ?_, ?_⟩
    · exact ((dedupFirst_nodup _).sublist (List.take_sublist _ _))
    · exact List.length_take_le _ _
    · have hs := List.sorted_insertionSort msRelLE (msReleases parseDate ms)
      exact List.pairwise_map.mpr hs
    · intro v hv
      have hvL := hsub.subset hv
      rw [List.mem_map] at hvL
      obtain ⟨rel, hrelmem, hveq⟩ := hvL
      have hrel2 : rel ∈ msReleases parseDate ms :=
        (List.perm_insertionSort msRelLE _).mem_iff.mp hrelmem
      rw [msReleases, List.mem_filterMap] at hrel2
      obtain ⟨m, hm, hmrel⟩ := hrel2
      rw [Option.map_eq_some'] at hmrel
      obtain ⟨d, _, hrelval⟩ := hmrel
      refine ⟨m, hm, ?_⟩
      rw [← hveq, ← hrelval]

/-- Witness for C8 on a concrete match list: one entry with a valid date and
one whose date fails to parse. -/
theorem fetchMicrosoftVersions_spec_witness :
    fetchMicrosoftVersions
        (fun s => if s = "20-Aug-2024 20:31" then some 100 else none)
        [⟨"microsoft-edge-stable_128.0.2739.25-1_amd64.deb", "20-Aug-2024", "20:31"⟩,
         ⟨"other.deb", "21-Aug-2024", "9:99"⟩] = .ok ["128.0.2739.25"] ∧
    (["128.0.2739.25"] : List String).Nodup ∧
    (["128.0.2739.25"] : List String).length ≤ 20 ∧
    (∀ v ∈ (["128.0.2739.25"] : List String),
      ∃ m ∈ ([⟨"microsoft-edge-stable_128.0.2739.25-1_amd64.deb", "20-Aug-2024", "20:31"⟩,
              ⟨"other.deb", "21-Aug-2024", "9:99"⟩] : List msMatch),
        v = msStripVersion m.filename) := by
  have h := (fetchMicrosoftVersions_spec
      (fun s => if s = "20-Aug-2024 20:31" then some 100 else none)
      [⟨"microsoft-edge-stable_128.0.2739.25-1_amd64.deb", "20-Aug-2024", "20:31"⟩,
       ⟨"other.deb", "21-Aug-2024", "9:99"⟩]).2 ["128.0.2739.25"] rfl
  exact ⟨rfl, h.1, h.2.1, h.2.2.2.2⟩
